import Mathlib

/-!
Verification development for three components of the repository excerpt:
the codicon value object (src/vs/base/browser/ui/codiconLabel/codicons.ts),
the icon registry (src/vs/platform/theme/common/iconRegistry.ts), and the
bidirectional windowed instruction loader of the disassembly view
(the second document in the same source bundle).

Every definition below is translated from the TypeScript source; the one
exception is the external paged instruction source, which is provided by
IDebugService and is not part of the sources, and is therefore modelled
from the specification (see idealFetch).
-/

/-! ### Codicon (src/vs/base/browser/ui/codiconLabel/codicons.ts) -/

/-- The codicon value object: wraps an icon identifier string.
Source: class Codicon, constructor stores the id. -/
structure Codicon where
  id : String
deriving DecidableEq

/-- Source: get className returns the string concatenation
of a fixed class list and the identifier. -/
def Codicon.className (c : Codicon) : String := "codicon codicon-" ++ c.id

/-- Source: get cssSelector returns the selector string for the icon. -/
def Codicon.cssSelector (c : Codicon) : String := ".codicon.codicon-" ++ c.id

/-! ### Icon registry (src/vs/platform/theme/common/iconRegistry.ts) -/

/-- Source: ThemeIcon from themeService, reduced to the id used here. -/
structure ThemeIcon where
  id : String
deriving DecidableEq

/-- Source: interface IconDefinition. -/
structure IconDefinition where
  fontId : Option String
  character : String
deriving DecidableEq

/-- Source: type IconDefaults = ThemeIcon | IconDefinition. -/
inductive IconDefaults where
  | theme (icon : ThemeIcon)
  | definition (d : IconDefinition)
deriving DecidableEq

/-- Source: interface IconContribution. -/
structure IconContribution where
  id : String
  description : String
  deprecationMessage : Option String
  defaults : IconDefaults
deriving DecidableEq

/-- The property schema registerIcon builds for each icon id: a fixed
ref to the icons definition, an optional deprecation message and a
markdown description. -/
structure IconPropertySchema where
  ref : String
  deprecationMessage : Option String
  markdownDescription : String
deriving DecidableEq

/-- The mutable state of class IconRegistry: iconsById (a JS object,
modelled as an insertion-ordered association list with unique keys),
the properties map of iconSchema, and the enum and enumDescriptions
arrays of iconReferenceSchema. -/
structure IconRegistryState where
  iconsById : List (String × IconContribution)
  schemaProperties : List (String × IconPropertySchema)
  enum : List String
  enumDescriptions : List String
deriving DecidableEq

/-- JS object property assignment obj[k] = v: replace the value in place
when the key is present, append the binding otherwise. -/
def upsert {α : Type} (k : String) (v : α) : List (String × α) → List (String × α)
  | [] => [(k, v)]
  | (k', v') :: rest => if k' = k then (k, v) :: rest else (k', v') :: upsert k v rest

/-- JS delete obj[k]: drop the binding for the key. -/
def deleteKey {α : Type} (k : String) : List (String × α) → List (String × α)
  | [] => []
  | (k', v') :: rest => if k' = k then rest else (k', v') :: deleteKey k rest

/-- JS Array.prototype.indexOf: index of the first occurrence, none when
absent. -/
def firstIndexOf : List String → String → Option Nat
  | [], _ => none
  | x :: xs, id => if x = id then some 0 else (firstIndexOf xs id).map (· + 1)

/-- Source lines 98 to 100 of registerIcon: a falsy description (absent or
empty) is replaced by the localized default text with the id substituted
for the placeholder. -/
def resolveDescription (id : String) (description : Option String) : String :=
  match description with
  | none => "Icon with identifier " ++ id
  | some d => if d = "" then "Icon with identifier " ++ id else d

/-- Source lines 104 to 106: the deprecation message is copied onto the
property schema only when truthy. -/
def normalizeDeprecation (deprecationMessage : Option String) : Option String :=
  match deprecationMessage with
  | none => none
  | some d => if d = "" then none else some d

/-- Source: IconRegistry.registerIcon. Builds the contribution, stores it
under the id (overwriting any previous one), builds the property schema,
appends the id and description to the reference schema arrays, and
returns the ThemeIcon. -/
def registerIcon (s : IconRegistryState) (id : String) (defaults : IconDefaults)
    (description : Option String) (deprecationMessage : Option String) :
    IconRegistryState × ThemeIcon :=
  let desc := resolveDescription id description
  let iconContribution : IconContribution :=
    { id := id, description := desc, deprecationMessage := deprecationMessage,
      defaults := defaults }
  let propertySchema : IconPropertySchema :=
    { ref := "#/definitions/icons",
      deprecationMessage := normalizeDeprecation deprecationMessage,
      markdownDescription := desc ++ ": $(" ++ id ++ ")" }
  ({ iconsById := upsert id iconContribution s.iconsById,
     schemaProperties := upsert id propertySchema s.schemaProperties,
     enum := s.enum ++ [id],
     enumDescriptions := s.enumDescriptions ++ [desc] },
   { id := id })

/-- Source: IconRegistry.deregisterIcon. Deletes the map entries and, when
the id occurs in the enum array, removes the first occurrence from enum
and the entry at the same index from enumDescriptions. -/
def deregisterIcon (s : IconRegistryState) (id : String) : IconRegistryState :=
  let iconsById := deleteKey id s.iconsById
  let schemaProperties := deleteKey id s.schemaProperties
  match firstIndexOf s.enum id with
  | some index =>
      { iconsById := iconsById, schemaProperties := schemaProperties,
        enum := s.enum.eraseIdx index,
        enumDescriptions := s.enumDescriptions.eraseIdx index }
  | none =>
      { iconsById := iconsById, schemaProperties := schemaProperties,
        enum := s.enum, enumDescriptions := s.enumDescriptions }

/-- Source: IconRegistry.getIcons maps each key of iconsById to its
contribution in insertion order. -/
def getIcons (s : IconRegistryState) : List IconContribution :=
  s.iconsById.map Prod.snd

/-- Source: IconRegistry.getIconReferenceSchema exposes the reference
schema; the claims are about its enum array. -/
def getIconReferenceSchemaEnum (s : IconRegistryState) : List String :=
  s.enum

/-! ### Disassembly view windowed loader (DisassemblyView in the source) -/

/-- Source: DisassemblyView.NUM_INSTRUCTIONS_TO_LOAD = 50, the page size. -/
abbrev NUM_INSTRUCTIONS_TO_LOAD : Nat := 50

/-- Source: the fields of DebugProtocol.DisassembledInstruction used by the
view. The address is the identity key of a row (identityProvider getId). -/
structure DisassembledInstruction where
  address : String
  instructionBytes : String
  instructionText : String
deriving DecidableEq

/-- Source: interface IDisassembledInstructionEntry. -/
structure IDisassembledInstructionEntry where
  allowBreakpoint : Bool
  isBreakpointSet : Bool
  instruction : DisassembledInstruction
deriving DecidableEq

/-- Source line in loadDisassembledInstructions: every fetched instruction
is wrapped as an entry with allowBreakpoint true and isBreakpointSet
false. -/
def toEntry (d : DisassembledInstruction) : IDisassembledInstructionEntry :=
  { allowBreakpoint := true, isBreakpointSet := false, instruction := d }

/-- Outcome of one call to the external paged source (the promise returned
by getDisassemble): the promise may reject, or resolve with no result, or
resolve with a list of instructions. -/
inductive FetchOutcome where
  | threw
  | resolved (result : Option (List DisassembledInstruction))
deriving DecidableEq

/-- Result of one run of loadDisassembledInstructions: the table contents
afterwards, together with whether the returned promise fulfilled (an async
function fulfills unless the awaited fetch rejects). -/
inductive LoadResult where
  | rejected (window : List IDisassembledInstructionEntry)
  | fulfilled (window : List IDisassembledInstructionEntry)
deriving DecidableEq

/-- The table contents carried by a LoadResult. -/
def LoadResult.window : LoadResult → List IDisassembledInstructionEntry
  | .rejected w => w
  | .fulfilled w => w

/-- Whether the LoadResult fulfilled, that is, no error was raised. -/
def LoadResult.isFulfilled : LoadResult → Bool
  | .rejected _ => false
  | .fulfilled _ => true

/-- JS Array.prototype.splice(start, 0, ...items) restricted to pure
insertion: the start index is clamped into the array bounds, negative
values counting from the end. -/
def spliceInsert {α : Type} (l : List α) (start : Int) (items : List α) : List α :=
  let n : Int := l.length
  let s : Nat := (if start < 0 then max (n + start) 0 else min start n).toNat
  l.take s ++ items ++ l.drop s

/-- Source: DisassemblyView.loadDisassembledInstructions(offset, count).
Awaits the source; when it rejects the error propagates (window is left
unchanged); when it resolves with no result nothing happens; when it
resolves with instructions they are wrapped as entries and spliced into
the table, at index offset when offset is nonnegative and at index 0
(a prepend) otherwise. -/
def loadDisassembledInstructions (window : List IDisassembledInstructionEntry)
    (offset : Int) (instructionCount : Nat) (outcome : FetchOutcome) : LoadResult :=
  match outcome with
  | .threw => .rejected window
  | .resolved none => .fulfilled window
  | .resolved (some resultEntries) =>
      let newEntries := resultEntries.map toEntry
      if offset ≥ 0 then .fulfilled (spliceInsert window offset newEntries)
      else .fulfilled (spliceInsert window 0 newEntries)

/-- The geometry of one scroll event, in pixels (modelled as rationals):
fields oldScrollTop, scrollTop, height and scrollHeight of the event the
table emits. -/
structure ScrollEvent where
  oldScrollTop : Rat
  scrollTop : Rat
  height : Rat
  scrollHeight : Rat
deriving DecidableEq

/-- Source, backward branch guard of the onDidScroll handler:
e.oldScrollTop > e.scrollTop and e.scrollTop < e.height. -/
def backwardCond (e : ScrollEvent) : Prop :=
  e.oldScrollTop > e.scrollTop ∧ e.scrollTop < e.height

/-- Source, forward branch guard of the onDidScroll handler:
e.oldScrollTop < e.scrollTop and e.scrollTop + e.height >
e.scrollHeight - e.height. -/
def forwardCond (e : ScrollEvent) : Prop :=
  e.oldScrollTop < e.scrollTop ∧ e.scrollTop + e.height > e.scrollHeight - e.height

instance (e : ScrollEvent) : Decidable (backwardCond e) :=
  inferInstanceAs (Decidable (_ ∧ _))

instance (e : ScrollEvent) : Decidable (forwardCond e) :=
  inferInstanceAs (Decidable (_ ∧ _))

/-- A call to WorkbenchTable.reveal(index, relativeTop). -/
structure RevealCall where
  index : Int
  relativeTop : Rat
deriving DecidableEq

/-- The loader state owned by the view: the table contents and the field
_lastOffset. -/
structure ViewState where
  window : List IDisassembledInstructionEntry
  lastOffset : Int
deriving DecidableEq

/-- Source: the tail of createEditor. Sets _lastOffset to minus the page
size, loads one page at that offset and, when the load fulfills, reveals
row NUM_INSTRUCTIONS_TO_LOAD with relative top 0.5. The source of each
fetch is passed as a function from (offset, instructionCount) to its
outcome. -/
def initialLoad (fetch : Int → Nat → FetchOutcome) : ViewState × Option RevealCall :=
  let lastOffset : Int := -(NUM_INSTRUCTIONS_TO_LOAD : Int)
  match loadDisassembledInstructions [] lastOffset NUM_INSTRUCTIONS_TO_LOAD
      (fetch lastOffset NUM_INSTRUCTIONS_TO_LOAD) with
  | .fulfilled w =>
      ({ window := w, lastOffset := lastOffset },
       some { index := (NUM_INSTRUCTIONS_TO_LOAD : Int), relativeTop := 0.5 })
  | .rejected w => ({ window := w, lastOffset := lastOffset }, none)

/-- Source: the onDidScroll handler, with the launched fetch settling
before the next event (the synchronous-settlement view of the handler).
Backward branch: compute topElement from the new scrollTop, decrement
_lastOffset by the page size, load one page at the decremented offset and
on fulfillment reveal topElement with relative top 0. Forward branch:
load one page at the current table length. Otherwise nothing happens. -/
def scrollStep (lineHeight : Rat) (fetch : Int → Nat → FetchOutcome)
    (st : ViewState) (e : ScrollEvent) : ViewState × Option RevealCall :=
  if backwardCond e then
    let topElement : Int := ⌊e.scrollTop / lineHeight⌋ + (NUM_INSTRUCTIONS_TO_LOAD : Int)
    let newOffset : Int := st.lastOffset - (NUM_INSTRUCTIONS_TO_LOAD : Int)
    match loadDisassembledInstructions st.window newOffset NUM_INSTRUCTIONS_TO_LOAD
        (fetch newOffset NUM_INSTRUCTIONS_TO_LOAD) with
    | .fulfilled w =>
        ({ window := w, lastOffset := newOffset },
         some { index := topElement, relativeTop := 0 })
    | .rejected w => ({ window := w, lastOffset := newOffset }, none)
  else if forwardCond e then
    let anchor : Int := st.window.length
    match loadDisassembledInstructions st.window anchor NUM_INSTRUCTIONS_TO_LOAD
        (fetch anchor NUM_INSTRUCTIONS_TO_LOAD) with
    | .fulfilled w => ({ window := w, lastOffset := st.lastOffset }, none)
    | .rejected w => ({ window := w, lastOffset := st.lastOffset }, none)
  else (st, none)

/-- The list of n consecutive logical positions starting at a. -/
def intRange (a : Int) (n : Nat) : List Int :=
  (List.range n).map fun i : Nat => a + (i : Int)

/-- The entries the loader builds for the source instructions at a list of
logical positions. -/
def entrySeg (src : Int → DisassembledInstruction) (L : List Int) :
    List IDisassembledInstructionEntry :=
  L.map fun i => toEntry (src i)

/-- Modelled from the spec: getDisassemble is provided by IDebugService,
which is not among the sources. Per the paged-source contract of the spec
(section 6) and the debug adapter protocol semantics of an instruction
offset, a fetch anchored at an offset resolves with the consecutive
instructions at logical positions offset, offset + 1, ...,
offset + count - 1 relative to the fixed reference address. -/
def idealFetch (src : Int → DisassembledInstruction) : Int → Nat → FetchOutcome :=
  fun anchor count => .resolved (some ((intRange anchor count).map src))

/-- The two fetch-and-merge operations of the loader, named after the
branch of the onDidScroll handler that launches them. -/
inductive Op where
  | back
  | fwd
deriving DecidableEq

/-- One fetch-and-merge operation with its fetch settling immediately,
exactly as the corresponding branch of the handler performs it: back
decrements _lastOffset by the page size and loads at the decremented
offset, fwd loads at the current table length. -/
def applyOp (fetch : Int → Nat → FetchOutcome) (st : ViewState) : Op → ViewState
  | .back =>
      let newOffset : Int := st.lastOffset - (NUM_INSTRUCTIONS_TO_LOAD : Int)
      { window := (loadDisassembledInstructions st.window newOffset
          NUM_INSTRUCTIONS_TO_LOAD (fetch newOffset NUM_INSTRUCTIONS_TO_LOAD)).window,
        lastOffset := newOffset }
  | .fwd =>
      let anchor : Int := st.window.length
      { window := (loadDisassembledInstructions st.window anchor
          NUM_INSTRUCTIONS_TO_LOAD (fetch anchor NUM_INSTRUCTIONS_TO_LOAD)).window,
        lastOffset := st.lastOffset }

/-- Runs a sequence of fetch-and-merge operations. -/
def runOps (fetch : Int → Nat → FetchOutcome) (st : ViewState) : List Op → ViewState
  | [] => st
  | op :: ops => runOps fetch (applyOp fetch st op) ops

/-- The loader state reached from view creation by a sequence of
fetch-and-merge operations against the ideal source. -/
def runFromInit (src : Int → DisassembledInstruction) (ops : List Op) : ViewState :=
  runOps (idealFetch src) (initialLoad (idealFetch src)).1 ops

/-- A fetch that has been launched but has not settled yet: the offset and
count captured by loadDisassembledInstructions, whether it came from the
backward branch, and the reveal target chained on its fulfillment. -/
structure PendingFetch where
  offset : Int
  instructionCount : Nat
  isBackward : Bool
  topElement : Int
deriving DecidableEq

/-- The loader state with fetch settlement decoupled from the scroll
events: the table contents, _lastOffset, the launched and still
outstanding fetches in launch order, and counters of how many fetches
each branch has launched. -/
structure AsyncState where
  window : List IDisassembledInstructionEntry
  lastOffset : Int
  pending : List PendingFetch
  backwardLaunches : Nat
  forwardLaunches : Nat
deriving DecidableEq

/-- Source: the onDidScroll handler, recording only its synchronous part.
The backward branch decrements _lastOffset and launches a fetch at the
decremented offset with the reveal target chained on it; the forward
branch launches a fetch at the current table length. The handler contains
no guard: it launches on every qualifying event, outstanding fetches
notwithstanding. -/
def asyncScroll (lineHeight : Rat) (st : AsyncState) (e : ScrollEvent) : AsyncState :=
  if backwardCond e then
    let topElement : Int := ⌊e.scrollTop / lineHeight⌋ + (NUM_INSTRUCTIONS_TO_LOAD : Int)
    let newOffset : Int := st.lastOffset - (NUM_INSTRUCTIONS_TO_LOAD : Int)
    { st with lastOffset := newOffset,
              pending := st.pending ++
                [{ offset := newOffset, instructionCount := NUM_INSTRUCTIONS_TO_LOAD,
                   isBackward := true, topElement := topElement }],
              backwardLaunches := st.backwardLaunches + 1 }
  else if forwardCond e then
    { st with pending := st.pending ++
                [{ offset := (st.window.length : Int),
                   instructionCount := NUM_INSTRUCTIONS_TO_LOAD,
                   isBackward := false, topElement := 0 }],
              forwardLaunches := st.forwardLaunches + 1 }
  else st

/-- Settlement of the i-th outstanding fetch: loadDisassembledInstructions
resumes with the captured offset and count on the current table contents,
and when it fulfills and came from the backward branch the chained reveal
of its topElement fires. -/
def asyncComplete (fetch : Int → Nat → FetchOutcome) (st : AsyncState) (i : Nat) :
    AsyncState × Option RevealCall :=
  match st.pending[i]? with
  | none => (st, none)
  | some p =>
      let rest := st.pending.eraseIdx i
      match loadDisassembledInstructions st.window p.offset p.instructionCount
          (fetch p.offset p.instructionCount) with
      | .fulfilled w =>
          ({ st with window := w, pending := rest },
           if p.isBackward then some { index := p.topElement, relativeTop := 0 } else none)
      | .rejected w => ({ st with window := w, pending := rest }, none)

/-- An injective address encoding used for concrete runs: the sign of the
logical position followed by its absolute value in unary. -/
def addrOf (i : Int) : String :=
  String.mk ((if i < 0 then '-' else '+') :: List.replicate i.natAbs 'a')

/-- A concrete instruction stream with pairwise distinct addresses. -/
def addrSrc : Int → DisassembledInstruction :=
  fun i => { address := addrOf i, instructionBytes := "", instructionText := "" }

/-! ### Basic lemmas about the building blocks -/

theorem length_intRange (a : Int) (n : Nat) : (intRange a n).length = n := by
  simp [intRange]

theorem mem_intRange {x a : Int} {n : Nat} :
    x ∈ intRange a n ↔ a ≤ x ∧ x < a + n := by
  simp only [intRange, List.mem_map, List.mem_range]
  constructor
  · rintro ⟨i, hi, rfl⟩
    omega
  · rintro ⟨h1, h2⟩
    refine ⟨(x - a).toNat, by omega, by omega⟩

theorem intRange_succ_left (a : Int) (n : Nat) :
    intRange a (n + 1) = a :: intRange (a + 1) n := by
  simp only [intRange, List.range_succ_eq_map, List.map_cons, List.map_map,
    Nat.cast_zero, add_zero]
  congr 1
  apply List.map_congr_left
  intro i _
  simp only [Function.comp_apply, Nat.succ_eq_add_one]
  push_cast
  ring

theorem intRange_append (a : Int) (n m : Nat) :
    intRange a n ++ intRange (a + n) m = intRange a (n + m) := by
  simp only [intRange]
  rw [List.range_add, List.map_append, List.map_map]
  congr 1
  apply List.map_congr_left
  intro i _
  simp only [Function.comp_apply]
  push_cast
  ring

theorem pairwise_lt_intRange (a : Int) (n : Nat) :
    (intRange a n).Pairwise (· < ·) := by
  simp only [intRange]
  rw [List.pairwise_map]
  refine (List.pairwise_lt_range n).imp ?_
  intro i j hij
  omega

theorem nodup_intRange (a : Int) (n : Nat) : (intRange a n).Nodup :=
  (pairwise_lt_intRange a n).imp ne_of_lt

theorem spliceInsert_zero {α : Type} (l items : List α) :
    spliceInsert l 0 items = items ++ l := by
  simp [spliceInsert]

theorem spliceInsert_length {α : Type} (l items : List α) :
    spliceInsert l (l.length : Int) items = l ++ items := by
  simp only [spliceInsert]
  rw [if_neg (by omega)]
  simp

theorem length_spliceInsert {α : Type} (l items : List α) (start : Int) :
    (spliceInsert l start items).length = l.length + items.length := by
  unfold spliceInsert
  simp only [List.length_append, List.length_take, List.length_drop]
  omega

theorem spliceInsert_nil_items {α : Type} (l : List α) (start : Int) :
    spliceInsert l start [] = l := by
  unfold spliceInsert
  simp

theorem entrySeg_append (src : Int → DisassembledInstruction) (L M : List Int) :
    entrySeg src (L ++ M) = entrySeg src L ++ entrySeg src M := by
  simp [entrySeg]

theorem length_entrySeg (src : Int → DisassembledInstruction) (L : List Int) :
    (entrySeg src L).length = L.length := by
  simp [entrySeg]

theorem map_toEntry_map (src : Int → DisassembledInstruction) (L : List Int) :
    ((L.map src).map toEntry) = entrySeg src L := by
  simp [entrySeg, List.map_map, Function.comp]

theorem load_resolved_neg (window : List IDisassembledInstructionEntry)
    (offset : Int) (n : Nat) (page : List DisassembledInstruction)
    (hoff : offset < 0) :
    loadDisassembledInstructions window offset n (.resolved (some page))
      = .fulfilled (page.map toEntry ++ window) := by
  simp only [loadDisassembledInstructions]
  rw [if_neg (by omega), spliceInsert_zero]

theorem load_resolved_at_length (window : List IDisassembledInstructionEntry)
    (n : Nat) (page : List DisassembledInstruction) :
    loadDisassembledInstructions window (window.length : Int) n (.resolved (some page))
      = .fulfilled (window ++ page.map toEntry) := by
  simp only [loadDisassembledInstructions]
  rw [if_pos (by omega), spliceInsert_length]

theorem runOps_append (fetch : Int → Nat → FetchOutcome) (st : ViewState)
    (ops : List Op) (op : Op) :
    runOps fetch st (ops ++ [op]) = applyOp fetch (runOps fetch st ops) op := by
  induction ops generalizing st with
  | nil => rfl
  | cons o os ih =>
      simp only [List.cons_append, runOps]
      exact ih (applyOp fetch st o)

/-! ### The window invariant of the loader against the ideal source -/

/-- The logical positions a backward-only window covers: the interval
from the current offset up to 0. -/
def negSpan (off : Int) : List Int := intRange off (-off).toNat

/-- The shape every reachable loader state has against the ideal source:
the window is the source segment from the offset up to 0 followed by the
entries of the forward pages, whose positions are strictly increasing,
at least one page size, and below the window length. -/
def windowInv (src : Int → DisassembledInstruction) (st : ViewState) : Prop :=
  ∃ F : List Int,
    st.window = entrySeg src (negSpan st.lastOffset ++ F) ∧
    st.lastOffset ≤ -(50 : Int) ∧
    F.Pairwise (· < ·) ∧
    ∀ x ∈ F, (50 : Int) ≤ x ∧ x < (((negSpan st.lastOffset ++ F).length : Nat) : Int)

/-- The claimed gap-free shape: the window is exactly the source segment
starting at the offset. -/
def spanExact (src : Int → DisassembledInstruction) (st : ViewState) : Prop :=
  st.window = entrySeg src (negSpan st.lastOffset) ∧ st.lastOffset ≤ -(50 : Int)

theorem initialLoad_spec (src : Int → DisassembledInstruction) :
    initialLoad (idealFetch src)
      = ({ window := entrySeg src (intRange (-50) 50), lastOffset := -50 },
         some { index := 50, relativeTop := 0.5 }) := by
  simp only [initialLoad, idealFetch, NUM_INSTRUCTIONS_TO_LOAD]
  rw [load_resolved_neg _ _ _ _ (by omega)]
  simp [entrySeg, List.map_map, Function.comp]

theorem applyOp_back_ideal (src : Int → DisassembledInstruction) (st : ViewState)
    (h : st.lastOffset < 50) :
    applyOp (idealFetch src) st Op.back
      = { window := entrySeg src (intRange (st.lastOffset - 50) 50) ++ st.window,
          lastOffset := st.lastOffset - 50 } := by
  simp only [applyOp, idealFetch, NUM_INSTRUCTIONS_TO_LOAD]
  rw [load_resolved_neg _ _ _ _ (by omega)]
  simp [LoadResult.window, entrySeg, List.map_map, Function.comp]

theorem applyOp_fwd_ideal (src : Int → DisassembledInstruction) (st : ViewState) :
    applyOp (idealFetch src) st Op.fwd
      = { window := st.window ++ entrySeg src (intRange (st.window.length : Int) 50),
          lastOffset := st.lastOffset } := by
  simp only [applyOp, idealFetch, NUM_INSTRUCTIONS_TO_LOAD]
  rw [load_resolved_at_length]
  simp [LoadResult.window, entrySeg, List.map_map, Function.comp]

theorem negSpan_step (off : Int) (h : off ≤ 0) :
    negSpan (off - 50) = intRange (off - 50) 50 ++ negSpan off := by
  unfold negSpan
  have h1 := intRange_append (off - 50) 50 ((-off).toNat)
  have h2 : (off - 50) + ((50 : Nat) : Int) = off := by push_cast; ring
  rw [h2] at h1
  rw [h1]
  congr 1
  omega

theorem map_address_entrySeg (src : Int → DisassembledInstruction) (L : List Int) :
    (entrySeg src L).map (fun e => e.instruction.address)
      = L.map fun i => (src i).address := by
  simp only [entrySeg, List.map_map]
  apply List.map_congr_left
  intro i _
  rfl

theorem windowInv_init (src : Int → DisassembledInstruction) :
    windowInv src (initialLoad (idealFetch src)).1 := by
  rw [initialLoad_spec]
  refine ⟨[], ?_, by norm_num, List.Pairwise.nil, by simp⟩
  show entrySeg src (intRange (-50) 50) = entrySeg src (negSpan (-50) ++ [])
  rw [List.append_nil]
  unfold negSpan
  congr 1

theorem windowInv_back (src : Int → DisassembledInstruction) (st : ViewState)
    (h : windowInv src st) : windowInv src (applyOp (idealFetch src) st Op.back) := by
  obtain ⟨F, hw, hoff, hpw, hb⟩ := h
  rw [applyOp_back_ideal src st (by omega)]
  refine ⟨F, ?_, ?_, hpw, ?_⟩
  · show entrySeg src (intRange (st.lastOffset - 50) 50) ++ st.window
      = entrySeg src (negSpan (st.lastOffset - 50) ++ F)
    rw [hw, negSpan_step st.lastOffset (by omega)]
    simp [entrySeg_append, List.append_assoc]
  · show st.lastOffset - 50 ≤ -(50 : Int)
    omega
  · intro x hx
    obtain ⟨hx1, hx2⟩ := hb x hx
    refine ⟨hx1, ?_⟩
    show x < (((negSpan (st.lastOffset - 50) ++ F).length : Nat) : Int)
    simp only [negSpan, List.length_append, length_intRange] at hx2 ⊢
    omega

theorem windowInv_fwd (src : Int → DisassembledInstruction) (st : ViewState)
    (h : windowInv src st) : windowInv src (applyOp (idealFetch src) st Op.fwd) := by
  obtain ⟨F, hw, hoff, hpw, hb⟩ := h
  rw [applyOp_fwd_ideal src st]
  have hlen : st.window.length = (negSpan st.lastOffset ++ F).length := by
    rw [hw, length_entrySeg]
  refine ⟨F ++ intRange (st.window.length : Int) 50, ?_, hoff, ?_, ?_⟩
  · show st.window ++ entrySeg src (intRange (st.window.length : Int) 50)
      = entrySeg src (negSpan st.lastOffset ++ (F ++ intRange (st.window.length : Int) 50))
    rw [hw]
    simp [entrySeg_append, List.append_assoc, hlen]
  · rw [List.pairwise_append]
    refine ⟨hpw, pairwise_lt_intRange _ _, ?_⟩
    intro x hx y hy
    obtain ⟨hy1, hy2⟩ := mem_intRange.mp hy
    have hx2 := (hb x hx).2
    rw [hlen] at hy1
    omega
  · intro x hx
    rw [List.mem_append] at hx
    have hnb : (50 : Int) ≤ ((negSpan st.lastOffset).length : Int) := by
      simp only [negSpan, length_intRange]
      omega
    show (50 : Int) ≤ x
      ∧ x < (((negSpan st.lastOffset ++ (F ++ intRange (st.window.length : Int) 50)).length : Nat) : Int)
    simp only [List.length_append, length_intRange]
    rcases hx with hx | hx
    · obtain ⟨hx1, hx2⟩ := hb x hx
      simp only [List.length_append] at hx2
      refine ⟨hx1, by push_cast at hx2 ⊢; omega⟩
    · obtain ⟨hx1, hx2⟩ := mem_intRange.mp hx
      rw [hlen] at hx1 hx2
      simp only [List.length_append] at hx1 hx2
      refine ⟨by push_cast at hx1; omega, by push_cast at hx2 ⊢; omega⟩

theorem windowInv_run (src : Int → DisassembledInstruction) (st : ViewState)
    (ops : List Op) (h : windowInv src st) :
    windowInv src (runOps (idealFetch src) st ops) := by
  induction ops generalizing st with
  | nil => exact h
  | cons o os ih =>
      cases o with
      | back => exact ih _ (windowInv_back src st h)
      | fwd => exact ih _ (windowInv_fwd src st h)

theorem windowInv_nodup (src : Int → DisassembledInstruction)
    (hinj : Function.Injective fun i => (src i).address)
    (st : ViewState) (h : windowInv src st) :
    (st.window.map fun e => e.instruction.address).Nodup := by
  obtain ⟨F, hw, hoff, hpw, hb⟩ := h
  rw [hw, map_address_entrySeg]
  apply List.Nodup.map hinj
  rw [List.nodup_append]
  refine ⟨nodup_intRange _ _, hpw.imp ne_of_lt, ?_⟩
  intro x hx hx2
  have h1 := (mem_intRange.mp hx).2
  have h2 := (hb x hx2).1
  omega

theorem spanExact_back (src : Int → DisassembledInstruction) (st : ViewState)
    (h : spanExact src st) : spanExact src (applyOp (idealFetch src) st Op.back) := by
  obtain ⟨hw, hoff⟩ := h
  rw [applyOp_back_ideal src st (by omega)]
  refine ⟨?_, by show st.lastOffset - 50 ≤ -(50 : Int); omega⟩
  show entrySeg src (intRange (st.lastOffset - 50) 50) ++ st.window
    = entrySeg src (negSpan (st.lastOffset - 50))
  rw [hw, negSpan_step st.lastOffset (by omega), entrySeg_append]

theorem spanExact_run (src : Int → DisassembledInstruction) (st : ViewState)
    (ops : List Op) (h : spanExact src st) (hops : Op.fwd ∉ ops) :
    spanExact src (runOps (idealFetch src) st ops) := by
  induction ops generalizing st with
  | nil => exact h
  | cons o os ih =>
      simp only [List.mem_cons, not_or] at hops
      cases o with
      | back => exact ih _ (spanExact_back src st h) hops.2
      | fwd => exact absurd rfl hops.1

theorem spanExact_init (src : Int → DisassembledInstruction) :
    spanExact src (initialLoad (idealFetch src)).1 := by
  rw [initialLoad_spec]
  refine ⟨?_, by norm_num⟩
  show entrySeg src (intRange (-50) 50) = entrySeg src (negSpan (-50))
  unfold negSpan
  congr 1

theorem addrOf_injective : Function.Injective addrOf := by
  intro i j h
  unfold addrOf at h
  have h2 : ((if i < 0 then '-' else '+') :: List.replicate i.natAbs 'a')
      = ((if j < 0 then '-' else '+') :: List.replicate j.natAbs 'a') :=
    congrArg String.data h
  rw [List.cons.injEq] at h2
  obtain ⟨hs, hr⟩ := h2
  have hn : i.natAbs = j.natAbs := by
    have := congrArg List.length hr
    simpa using this
  by_cases hi : i < 0 <;> by_cases hj : j < 0 <;> simp [hi, hj] at hs <;> omega

/-! ### Claim C1 -/

/-- C1, counterexample: one forward fetch right after initialization
leaves Offset at -50 and a window of 100 entries, but the window is not
the source segment of logical span [Offset, Offset + length): the forward
fetch was anchored at the window length 50 rather than at
Offset + length = 0, so the instructions at logical positions 0 to 49
were skipped. -/
theorem forward_fetch_creates_gap :
    (runFromInit addrSrc [Op.fwd]).lastOffset = -50
    ∧ (runFromInit addrSrc [Op.fwd]).window.length = 100
    ∧ (runFromInit addrSrc [Op.fwd]).window
        ≠ entrySeg addrSrc (intRange (runFromInit addrSrc [Op.fwd]).lastOffset
            (runFromInit addrSrc [Op.fwd]).window.length) := by
  refine ⟨by decide, by decide, by decide⟩

/-- C1, amended: against the ideal source, for every sequence of
fetch-and-merge operations from the initialized state: the window never
has duplicate identity keys (given pairwise distinct source addresses);
each backward fetch decrements Offset by exactly the page size and
prepends one page; and the gap-free span property, that the window is
exactly the source segment [Offset, Offset + length), holds whenever the
sequence contains no forward fetch. Forward fetches break it, being
anchored at the window length instead of Offset + length. -/
theorem windowed_loader_span_invariant (src : Int → DisassembledInstruction)
    (hinj : Function.Injective fun i => (src i).address) (ops : List Op) :
    ((runFromInit src ops).window.map fun e => e.instruction.address).Nodup
    ∧ (runFromInit src (ops ++ [Op.back])).lastOffset
        = (runFromInit src ops).lastOffset - 50
    ∧ (runFromInit src (ops ++ [Op.back])).window
        = entrySeg src (intRange ((runFromInit src ops).lastOffset - 50) 50)
          ++ (runFromInit src ops).window
    ∧ (Op.fwd ∉ ops →
        (runFromInit src ops).window
          = entrySeg src (negSpan (runFromInit src ops).lastOffset)) := by
  have hinv : windowInv src (runFromInit src ops) :=
    windowInv_run src _ ops (windowInv_init src)
  obtain ⟨F, hw, hoff, hpw, hb⟩ := hinv
  have hstep : runFromInit src (ops ++ [Op.back])
      = { window := entrySeg src (intRange ((runFromInit src ops).lastOffset - 50) 50)
            ++ (runFromInit src ops).window,
          lastOffset := (runFromInit src ops).lastOffset - 50 } := by
    have hoff2 : (runOps (idealFetch src) (initialLoad (idealFetch src)).1 ops).lastOffset
        ≤ -(50 : Int) := hoff
    unfold runFromInit
    rw [runOps_append]
    exact applyOp_back_ideal src _ (by omega)
  refine ⟨windowInv_nodup src hinj _ ⟨F, hw, hoff, hpw, hb⟩, ?_, ?_, ?_⟩
  · rw [hstep]
  · rw [hstep]
  · intro hops
    exact (spanExact_run src _ ops (spanExact_init src) hops).1

/-- Witness for C1 at the concrete source, with one backward fetch. -/
theorem windowed_loader_span_invariant_witness :
    ((runFromInit addrSrc [Op.back]).window.map fun e => e.instruction.address).Nodup
    ∧ (runFromInit addrSrc ([Op.back] ++ [Op.back])).lastOffset
        = (runFromInit addrSrc [Op.back]).lastOffset - 50
    ∧ (runFromInit addrSrc ([Op.back] ++ [Op.back])).window
        = entrySeg addrSrc (intRange ((runFromInit addrSrc [Op.back]).lastOffset - 50) 50)
          ++ (runFromInit addrSrc [Op.back]).window
    ∧ (runFromInit addrSrc [Op.back]).window
        = entrySeg addrSrc (negSpan (runFromInit addrSrc [Op.back]).lastOffset) := by
  obtain ⟨h1, h2, h3, h4⟩ :=
    windowed_loader_span_invariant addrSrc (fun a b h => addrOf_injective h) [Op.back]
  exact ⟨h1, h2, h3, h4 (by decide)⟩

/-! ### Claims C2, C3, C4 -/

/-- A concrete scroll event qualifying for the backward branch. -/
def eBack : ScrollEvent :=
  { oldScrollTop := 300, scrollTop := 100, height := 200, scrollHeight := 10000 }

/-- A concrete scroll event qualifying for the forward branch. -/
def eFwd : ScrollEvent :=
  { oldScrollTop := 100, scrollTop := 300, height := 200, scrollHeight := 500 }

/-- C2: on a scroll event with decreased position strictly within one
viewport height of the top, when the source yields a full page at the
decremented offset, the handler decrements Offset by the page size,
prepends the page, and reveals the previously topmost row index plus the
page size with zero fractional offset. -/
theorem backward_scroll_behavior (lineHeight : Rat) (fetch : Int → Nat → FetchOutcome)
    (st : ViewState) (e : ScrollEvent) (page : List DisassembledInstruction)
    (hb : backwardCond e)
    (hoff : st.lastOffset ≤ -(50 : Int))
    (hfetch : fetch (st.lastOffset - 50) 50 = .resolved (some page))
    (hlen : page.length = 50) :
    (scrollStep lineHeight fetch st e).1.lastOffset = st.lastOffset - 50
    ∧ (scrollStep lineHeight fetch st e).1.window = page.map toEntry ++ st.window
    ∧ (scrollStep lineHeight fetch st e).1.window.length = st.window.length + 50
    ∧ (scrollStep lineHeight fetch st e).2
        = some { index := ⌊e.scrollTop / lineHeight⌋ + 50, relativeTop := 0 } := by
  have hstep : scrollStep lineHeight fetch st e
      = ({ window := page.map toEntry ++ st.window, lastOffset := st.lastOffset - 50 },
         some { index := ⌊e.scrollTop / lineHeight⌋ + 50, relativeTop := 0 }) := by
    simp only [scrollStep, NUM_INSTRUCTIONS_TO_LOAD, Nat.cast_ofNat, if_pos hb]
    rw [hfetch, load_resolved_neg _ _ _ _ (by omega)]
  refine ⟨by rw [hstep], by rw [hstep], ?_, by rw [hstep]⟩
  rw [hstep]
  simp [hlen, Nat.add_comm]

/-- Witness for C2 at the initialized state and a concrete event. -/
theorem backward_scroll_behavior_witness :
    (scrollStep 10 (idealFetch addrSrc) (initialLoad (idealFetch addrSrc)).1 eBack).1.lastOffset
        = (initialLoad (idealFetch addrSrc)).1.lastOffset - 50
    ∧ (scrollStep 10 (idealFetch addrSrc) (initialLoad (idealFetch addrSrc)).1 eBack).1.window
        = ((intRange ((initialLoad (idealFetch addrSrc)).1.lastOffset - 50) 50).map addrSrc).map
            toEntry ++ (initialLoad (idealFetch addrSrc)).1.window
    ∧ (scrollStep 10 (idealFetch addrSrc) (initialLoad (idealFetch addrSrc)).1 eBack).1.window.length
        = (initialLoad (idealFetch addrSrc)).1.window.length + 50
    ∧ (scrollStep 10 (idealFetch addrSrc) (initialLoad (idealFetch addrSrc)).1 eBack).2
        = some { index := ⌊eBack.scrollTop / 10⌋ + 50, relativeTop := 0 } :=
  backward_scroll_behavior 10 (idealFetch addrSrc) (initialLoad (idealFetch addrSrc)).1 eBack
    ((intRange ((initialLoad (idealFetch addrSrc)).1.lastOffset - 50) 50).map addrSrc)
    (by decide) (by decide) rfl (by decide)

/-- C3: on a scroll event with increased position whose viewport bottom is
within one viewport height of the content bottom, when the source yields
a full page at the current window length, the handler appends the page at
the end, leaves Offset alone, performs no reveal, and every previously
loaded item keeps its index. -/
theorem forward_scroll_behavior (lineHeight : Rat) (fetch : Int → Nat → FetchOutcome)
    (st : ViewState) (e : ScrollEvent) (page : List DisassembledInstruction)
    (hf : forwardCond e)
    (hfetch : fetch (st.window.length : Int) 50 = .resolved (some page))
    (hlen : page.length = 50) :
    (scrollStep lineHeight fetch st e).1.window = st.window ++ page.map toEntry
    ∧ (scrollStep lineHeight fetch st e).1.lastOffset = st.lastOffset
    ∧ (scrollStep lineHeight fetch st e).1.window.length = st.window.length + 50
    ∧ (scrollStep lineHeight fetch st e).2 = none
    ∧ ∀ i : Nat, i < st.window.length →
        (scrollStep lineHeight fetch st e).1.window[i]? = st.window[i]? := by
  have hnb : ¬ backwardCond e := fun hcontra => absurd hf.1 (not_lt.mpr (le_of_lt hcontra.1))
  have hstep : scrollStep lineHeight fetch st e
      = ({ window := st.window ++ page.map toEntry, lastOffset := st.lastOffset }, none) := by
    simp only [scrollStep, NUM_INSTRUCTIONS_TO_LOAD, Nat.cast_ofNat, if_neg hnb, if_pos hf]
    rw [hfetch, load_resolved_at_length]
  refine ⟨by rw [hstep], by rw [hstep], ?_, by rw [hstep], ?_⟩
  · rw [hstep]
    simp [hlen]
  · intro i hi
    rw [hstep]
    exact List.getElem?_append_left hi

/-- Witness for C3 at the initialized state and a concrete event. -/
theorem forward_scroll_behavior_witness :
    (scrollStep 10 (idealFetch addrSrc) (initialLoad (idealFetch addrSrc)).1 eFwd).1.window
        = (initialLoad (idealFetch addrSrc)).1.window ++
            ((intRange ((initialLoad (idealFetch addrSrc)).1.window.length : Int) 50).map
              addrSrc).map toEntry
    ∧ (scrollStep 10 (idealFetch addrSrc) (initialLoad (idealFetch addrSrc)).1 eFwd).1.lastOffset
        = (initialLoad (idealFetch addrSrc)).1.lastOffset
    ∧ (scrollStep 10 (idealFetch addrSrc) (initialLoad (idealFetch addrSrc)).1 eFwd).1.window.length
        = (initialLoad (idealFetch addrSrc)).1.window.length + 50
    ∧ (scrollStep 10 (idealFetch addrSrc) (initialLoad (idealFetch addrSrc)).1 eFwd).2 = none
    ∧ ∀ i : Nat, i < (initialLoad (idealFetch addrSrc)).1.window.length →
        (scrollStep 10 (idealFetch addrSrc) (initialLoad (idealFetch addrSrc)).1 eFwd).1.window[i]?
          = (initialLoad (idealFetch addrSrc)).1.window[i]? :=
  forward_scroll_behavior 10 (idealFetch addrSrc) (initialLoad (idealFetch addrSrc)).1 eFwd
    ((intRange ((initialLoad (idealFetch addrSrc)).1.window.length : Int) 50).map addrSrc)
    (by simp only [forwardCond, eFwd]; norm_num) rfl (by decide)

/-- C4, counterexample: against the ideal source, the first fetched page
occupies logical range [-50, 0), the fetch being anchored at
Offset = -50; it is not the segment [0, 50) the claim names. -/
theorem initial_fetch_not_at_zero :
    (initialLoad (idealFetch addrSrc)).1.window
        = entrySeg addrSrc (intRange (-50) 50)
    ∧ (initialLoad (idealFetch addrSrc)).1.window
        ≠ entrySeg addrSrc (intRange 0 50) := by
  refine ⟨by decide, by decide⟩

/-- C4, amended: after initialization against the ideal source the window
holds exactly 50 items, Offset is -50 (the value set before the initial
fetch and used as its anchor), the first fetched page occupies logical
range [-50, 0) = [Offset, Offset + pageSize), and the viewport is then
revealed at row index pageSize with relative top one half. -/
theorem initialize_spec (src : Int → DisassembledInstruction) :
    (initialLoad (idealFetch src)).1.window.length = 50
    ∧ (initialLoad (idealFetch src)).1.lastOffset = -50
    ∧ (initialLoad (idealFetch src)).1.window = entrySeg src (intRange (-50) 50)
    ∧ (initialLoad (idealFetch src)).2 = some { index := 50, relativeTop := 0.5 } := by
  rw [initialLoad_spec]
  refine ⟨?_, rfl, rfl, rfl⟩
  show (entrySeg src (intRange (-50) 50)).length = 50
  rw [length_entrySeg, length_intRange]

/-! ### Claims C5 and C6 -/

/-- The initialized loader state in the decoupled model, with no fetch
outstanding. -/
def asyncInit (src : Int → DisassembledInstruction) : AsyncState :=
  { window := (initialLoad (idealFetch src)).1.window,
    lastOffset := (initialLoad (idealFetch src)).1.lastOffset,
    pending := [], backwardLaunches := 0, forwardLaunches := 0 }

/-- A second backward-qualifying scroll event, following eBack. -/
def eBack2 : ScrollEvent :=
  { oldScrollTop := 100, scrollTop := 50, height := 200, scrollHeight := 10000 }

theorem asyncScroll_backward (lineHeight : Rat) (st : AsyncState) (e : ScrollEvent)
    (h : backwardCond e) :
    asyncScroll lineHeight st e
      = { st with
          lastOffset := st.lastOffset - 50,
          pending := st.pending ++
            [{ offset := st.lastOffset - 50, instructionCount := 50,
               isBackward := true,
               topElement := ⌊e.scrollTop / lineHeight⌋ + 50 }],
          backwardLaunches := st.backwardLaunches + 1 } := by
  simp only [asyncScroll, NUM_INSTRUCTIONS_TO_LOAD, Nat.cast_ofNat, if_pos h]

theorem asyncScroll_forward (lineHeight : Rat) (st : AsyncState) (e : ScrollEvent)
    (hnb : ¬ backwardCond e) (hf : forwardCond e) :
    asyncScroll lineHeight st e
      = { st with
          pending := st.pending ++
            [{ offset := (st.window.length : Int), instructionCount := 50,
               isBackward := false, topElement := 0 }],
          forwardLaunches := st.forwardLaunches + 1 } := by
  simp only [asyncScroll, NUM_INSTRUCTIONS_TO_LOAD, Nat.cast_ofNat, if_neg hnb, if_pos hf]

theorem asyncScroll_no_branch (lineHeight : Rat) (st : AsyncState) (e : ScrollEvent)
    (hnb : ¬ backwardCond e) (hnf : ¬ forwardCond e) :
    asyncScroll lineHeight st e = st := by
  unfold asyncScroll
  rw [if_neg hnb, if_neg hnf]

/-- C5, counterexample: starting from the initialized loader with no fetch
outstanding, two backward-qualifying scroll events launch two backward
fetches (both outstanding together) and, once both settle, the window has
received two prepended pages, growing from 50 to 150 entries. -/
theorem rapid_backward_scrolls_launch_two :
    (asyncScroll 10 (asyncScroll 10 (asyncInit addrSrc) eBack) eBack2).backwardLaunches = 2
    ∧ (asyncScroll 10 (asyncScroll 10 (asyncInit addrSrc) eBack) eBack2).pending.length = 2
    ∧ (asyncComplete (idealFetch addrSrc)
        (asyncComplete (idealFetch addrSrc)
          (asyncScroll 10 (asyncScroll 10 (asyncInit addrSrc) eBack) eBack2) 0).1 0).1.window.length
        = 150 := by
  refine ⟨by decide, by decide, by set_option maxRecDepth 4000 in decide⟩

/-- C5, amended: the onDidScroll handler has no Idle or Fetching guard:
every qualifying scroll event launches its fetch at once, outstanding
fetches notwithstanding. Two backward-qualifying events launch two
backward fetches, outstanding together, at consecutively decremented
offsets, and decrement Offset twice. -/
theorem no_concurrent_fetch_guard (lineHeight : Rat) (st : AsyncState) (e1 e2 : ScrollEvent)
    (h1 : backwardCond e1) (h2 : backwardCond e2) :
    (asyncScroll lineHeight (asyncScroll lineHeight st e1) e2).backwardLaunches
        = st.backwardLaunches + 2
    ∧ ((asyncScroll lineHeight (asyncScroll lineHeight st e1) e2).pending.map
          PendingFetch.offset)
        = st.pending.map PendingFetch.offset ++ [st.lastOffset - 50, st.lastOffset - 100]
    ∧ (asyncScroll lineHeight (asyncScroll lineHeight st e1) e2).lastOffset
        = st.lastOffset - 100 := by
  rw [asyncScroll_backward lineHeight st e1 h1, asyncScroll_backward lineHeight _ e2 h2]
  refine ⟨rfl, ?_, by show st.lastOffset - 50 - 50 = st.lastOffset - 100; omega⟩
  have heq : st.lastOffset - 50 - 50 = st.lastOffset - 100 := by omega
  simp [List.map_append, heq]

/-- Witness for C5 at the initialized state and concrete events. -/
theorem no_concurrent_fetch_guard_witness :
    (asyncScroll 10 (asyncScroll 10 (asyncInit addrSrc) eBack) eBack2).backwardLaunches
        = (asyncInit addrSrc).backwardLaunches + 2
    ∧ ((asyncScroll 10 (asyncScroll 10 (asyncInit addrSrc) eBack) eBack2).pending.map
          PendingFetch.offset)
        = (asyncInit addrSrc).pending.map PendingFetch.offset
            ++ [(asyncInit addrSrc).lastOffset - 50, (asyncInit addrSrc).lastOffset - 100]
    ∧ (asyncScroll 10 (asyncScroll 10 (asyncInit addrSrc) eBack) eBack2).lastOffset
        = (asyncInit addrSrc).lastOffset - 100 :=
  no_concurrent_fetch_guard 10 (asyncInit addrSrc) eBack eBack2 (by decide) (by decide)

/-- C6: the backward and forward guards are mutually exclusive per event
(one requires a decreased, the other an increased scroll position), at
most one fetch is launched per scroll event, and whenever the backward
guard holds the backward branch alone is taken, being evaluated first. -/
theorem at_most_one_fetch_per_event (lineHeight : Rat) (st : AsyncState) (e : ScrollEvent) :
    ¬ (backwardCond e ∧ forwardCond e)
    ∧ (asyncScroll lineHeight st e).pending.length ≤ st.pending.length + 1
    ∧ (backwardCond e →
        (asyncScroll lineHeight st e).backwardLaunches = st.backwardLaunches + 1
        ∧ (asyncScroll lineHeight st e).forwardLaunches = st.forwardLaunches) := by
  refine ⟨?_, ?_, ?_⟩
  · rintro ⟨hb, hf⟩
    exact absurd hb.1 (not_lt.mpr (le_of_lt hf.1))
  · by_cases hb : backwardCond e
    · rw [asyncScroll_backward lineHeight st e hb]
      simp
    · by_cases hf : forwardCond e
      · rw [asyncScroll_forward lineHeight st e hb hf]
        simp
      · rw [asyncScroll_no_branch lineHeight st e hb hf]
        omega
  · intro hb
    rw [asyncScroll_backward lineHeight st e hb]
    exact ⟨rfl, rfl⟩

/-- Witness for C6 at the initialized state and a concrete event. -/
theorem at_most_one_fetch_per_event_witness :
    ¬ (backwardCond eBack ∧ forwardCond eBack)
    ∧ (asyncScroll 10 (asyncInit addrSrc) eBack).pending.length
        ≤ (asyncInit addrSrc).pending.length + 1
    ∧ ((asyncScroll 10 (asyncInit addrSrc) eBack).backwardLaunches
          = (asyncInit addrSrc).backwardLaunches + 1
        ∧ (asyncScroll 10 (asyncInit addrSrc) eBack).forwardLaunches
          = (asyncInit addrSrc).forwardLaunches) := by
  obtain ⟨a, b, c⟩ := at_most_one_fetch_per_event 10 (asyncInit addrSrc) eBack
  exact ⟨a, b, c (by decide)⟩

/-! ### Claims C7 and C8 -/

/-- A source whose promise always resolves with no result. -/
def nullFetch : Int → Nat → FetchOutcome := fun _ _ => .resolved none

/-- C7, counterexample: with a source that resolves with no result, a
backward-qualifying scroll leaves the window unchanged, yet the viewport
is still repositioned: the reveal chained on the promise runs on
fulfillment whether or not a result came back; and Offset stays
decremented. -/
theorem empty_result_still_reveals :
    (scrollStep 10 nullFetch (initialLoad (idealFetch addrSrc)).1 eBack).1.window
        = (initialLoad (idealFetch addrSrc)).1.window
    ∧ (scrollStep 10 nullFetch (initialLoad (idealFetch addrSrc)).1 eBack).2 ≠ none
    ∧ (scrollStep 10 nullFetch (initialLoad (idealFetch addrSrc)).1 eBack).1.lastOffset
        = -100 := by
  refine ⟨by decide, by decide, by decide⟩

/-- C7, amended: when the fetch promise rejects, the window is unchanged
and no reveal happens; when it resolves without a result, the window is
also unchanged, but the backward branch still repositions the viewport,
the reveal being chained on fulfillment. The backward branch decrements
Offset before the fetch and never rolls it back, so the next backward
fetch targets the next lower page rather than the failed one; a failed
forward fetch leaves the state unchanged entirely, so the next forward
fetch retries the same anchor. -/
theorem fetch_failure_semantics (lineHeight : Rat) (fetch : Int → Nat → FetchOutcome)
    (st : ViewState) (e1 e2 : ScrollEvent)
    (hb : backwardCond e1) (hf : forwardCond e2) :
    (fetch (st.lastOffset - 50) 50 = FetchOutcome.threw →
      (scrollStep lineHeight fetch st e1).1.window = st.window
      ∧ (scrollStep lineHeight fetch st e1).2 = none)
    ∧ (fetch (st.lastOffset - 50) 50 = FetchOutcome.resolved none →
      (scrollStep lineHeight fetch st e1).1.window = st.window
      ∧ (scrollStep lineHeight fetch st e1).2
          = some { index := ⌊e1.scrollTop / lineHeight⌋ + 50, relativeTop := 0 })
    ∧ (scrollStep lineHeight fetch st e1).1.lastOffset = st.lastOffset - 50
    ∧ (fetch (st.window.length : Int) 50 = FetchOutcome.threw →
        (scrollStep lineHeight fetch st e2).1 = st
        ∧ (scrollStep lineHeight fetch st e2).2 = none)
    ∧ (fetch (st.window.length : Int) 50 = FetchOutcome.resolved none →
        (scrollStep lineHeight fetch st e2).1 = st
        ∧ (scrollStep lineHeight fetch st e2).2 = none) := by
  have hnb2 : ¬ backwardCond e2 := fun hc => absurd hf.1 (not_lt.mpr (le_of_lt hc.1))
  refine ⟨?_, ?_, ?_, ?_, ?_⟩
  · intro hout
    have hrun : scrollStep lineHeight fetch st e1
        = ({ window := st.window, lastOffset := st.lastOffset - 50 }, none) := by
      simp only [scrollStep, NUM_INSTRUCTIONS_TO_LOAD, Nat.cast_ofNat, if_pos hb]
      rw [hout]
      rfl
    rw [hrun]
    exact ⟨rfl, rfl⟩
  · intro hout
    have hrun : scrollStep lineHeight fetch st e1
        = ({ window := st.window, lastOffset := st.lastOffset - 50 },
           some { index := ⌊e1.scrollTop / lineHeight⌋ + 50, relativeTop := 0 }) := by
      simp only [scrollStep, NUM_INSTRUCTIONS_TO_LOAD, Nat.cast_ofNat, if_pos hb]
      rw [hout]
      rfl
    rw [hrun]
    exact ⟨rfl, rfl⟩
  · simp only [scrollStep, NUM_INSTRUCTIONS_TO_LOAD, Nat.cast_ofNat, if_pos hb]
    cases loadDisassembledInstructions st.window (st.lastOffset - 50) 50
        (fetch (st.lastOffset - 50) 50) <;> rfl
  · intro hout
    have hrun : scrollStep lineHeight fetch st e2 = (st, none) := by
      simp only [scrollStep, NUM_INSTRUCTIONS_TO_LOAD, Nat.cast_ofNat, if_neg hnb2, if_pos hf]
      rw [hout]
      rfl
    rw [hrun]
    exact ⟨rfl, rfl⟩
  · intro hout
    have hrun : scrollStep lineHeight fetch st e2 = (st, none) := by
      simp only [scrollStep, NUM_INSTRUCTIONS_TO_LOAD, Nat.cast_ofNat, if_neg hnb2, if_pos hf]
      rw [hout]
      rfl
    rw [hrun]
    exact ⟨rfl, rfl⟩

/-- Witness for C7 with a source resolving without result, at the
initialized state, one backward and one forward event. -/
theorem fetch_failure_semantics_witness :
    ((scrollStep 10 nullFetch (initialLoad (idealFetch addrSrc)).1 eBack).1.window
        = (initialLoad (idealFetch addrSrc)).1.window
      ∧ (scrollStep 10 nullFetch (initialLoad (idealFetch addrSrc)).1 eBack).2
          = some { index := ⌊eBack.scrollTop / 10⌋ + 50, relativeTop := 0 })
    ∧ (scrollStep 10 nullFetch (initialLoad (idealFetch addrSrc)).1 eBack).1.lastOffset
        = (initialLoad (idealFetch addrSrc)).1.lastOffset - 50
    ∧ ((scrollStep 10 nullFetch (initialLoad (idealFetch addrSrc)).1 eFwd).1
          = (initialLoad (idealFetch addrSrc)).1
      ∧ (scrollStep 10 nullFetch (initialLoad (idealFetch addrSrc)).1 eFwd).2 = none) := by
  obtain ⟨h1, h2, h3, h4, h5⟩ := fetch_failure_semantics 10 nullFetch
    (initialLoad (idealFetch addrSrc)).1 eBack eFwd (by decide)
    (by simp only [forwardCond, eFwd]; norm_num)
  exact ⟨h2 rfl, h3, h5 rfl⟩

/-- C8: a fetch that resolves with instructions never raises: the load
fulfills, the window grows by exactly the returned count wherever the
page is spliced, and a page of zero items leaves the window unchanged. -/
theorem short_page_semantics (window : List IDisassembledInstructionEntry)
    (offset : Int) (n : Nat) (page : List DisassembledInstruction) :
    (loadDisassembledInstructions window offset n (.resolved (some page))).isFulfilled = true
    ∧ (loadDisassembledInstructions window offset n (.resolved (some page))).window.length
        = window.length + page.length
    ∧ (page = [] →
        (loadDisassembledInstructions window offset n (.resolved (some page))).window
          = window) := by
  simp only [loadDisassembledInstructions]
  by_cases h : offset ≥ 0
  · rw [if_pos h]
    refine ⟨rfl, ?_, ?_⟩
    · simp [LoadResult.window, length_spliceInsert]
    · rintro rfl
      simp [LoadResult.window, spliceInsert_nil_items]
  · rw [if_neg h]
    refine ⟨rfl, ?_, ?_⟩
    · simp [LoadResult.window, length_spliceInsert]
    · rintro rfl
      simp [LoadResult.window, spliceInsert_nil_items]

/-- Witness for C8: a zero-item page on the initialized window, spliced at
the forward anchor. -/
theorem short_page_semantics_witness :
    (loadDisassembledInstructions (entrySeg addrSrc (intRange (-50) 50)) 50 50
        (.resolved (some []))).isFulfilled = true
    ∧ (loadDisassembledInstructions (entrySeg addrSrc (intRange (-50) 50)) 50 50
        (.resolved (some []))).window.length
        = (entrySeg addrSrc (intRange (-50) 50)).length
            + ([] : List DisassembledInstruction).length
    ∧ (loadDisassembledInstructions (entrySeg addrSrc (intRange (-50) 50)) 50 50
        (.resolved (some []))).window = entrySeg addrSrc (intRange (-50) 50) := by
  obtain ⟨h1, h2, h3⟩ := short_page_semantics (entrySeg addrSrc (intRange (-50) 50)) 50 50 []
  exact ⟨h1, h2, h3 rfl⟩

/-! ### Claims C9 and C10 -/

theorem upsert_not_mem {α : Type} (k : String) (v : α) (l : List (String × α))
    (h : k ∉ l.map Prod.fst) : upsert k v l = l ++ [(k, v)] := by
  induction l with
  | nil => rfl
  | cons kv rest ih =>
      obtain ⟨k', v'⟩ := kv
      simp only [List.map_cons, List.mem_cons, not_or] at h
      simp only [upsert]
      rw [if_neg (fun hc => h.1 hc.symm), List.cons_append]
      exact congrArg (List.cons (k', v')) (ih h.2)

theorem upsert_overwrite {α : Type} (k : String) (v w : α) (l : List (String × α))
    (h : k ∉ l.map Prod.fst) : upsert k v (l ++ [(k, w)]) = l ++ [(k, v)] := by
  induction l with
  | nil => simp [upsert]
  | cons kv rest ih =>
      obtain ⟨k', v'⟩ := kv
      simp only [List.map_cons, List.mem_cons, not_or] at h
      simp only [List.cons_append, upsert]
      rw [if_neg (fun hc => h.1 hc.symm)]
      exact congrArg (List.cons (k', v')) (ih h.2)

theorem deleteKey_append_single {α : Type} (k : String) (v : α) (l : List (String × α))
    (h : k ∉ l.map Prod.fst) : deleteKey k (l ++ [(k, v)]) = l := by
  induction l with
  | nil => simp [deleteKey]
  | cons kv rest ih =>
      obtain ⟨k', v'⟩ := kv
      simp only [List.map_cons, List.mem_cons, not_or] at h
      simp only [List.cons_append, deleteKey]
      rw [if_neg (fun hc => h.1 hc.symm)]
      exact congrArg (List.cons (k', v')) (ih h.2)

theorem firstIndexOf_cons_self (x : String) (xs : List String) :
    firstIndexOf (x :: xs) x = some 0 := by
  simp [firstIndexOf]

theorem firstIndexOf_append_not_mem (l r : List String) (id : String) (h : id ∉ l) :
    firstIndexOf (l ++ r) id = (firstIndexOf r id).map (· + l.length) := by
  induction l with
  | nil =>
      simp only [List.nil_append, List.length_nil]
      cases firstIndexOf r id <;> simp
  | cons x xs ih =>
      simp only [List.mem_cons, not_or] at h
      simp only [List.cons_append, firstIndexOf]
      rw [if_neg (fun hc => h.1 hc.symm)]
      show (firstIndexOf (xs ++ r) id).map (· + 1)
        = (firstIndexOf r id).map (· + (x :: xs).length)
      rw [ih h.2]
      cases firstIndexOf r id with
      | none => rfl
      | some n =>
          show some (n + xs.length + 1) = some (n + (xs.length + 1))
          rw [Nat.add_assoc]

theorem eraseIdx_append_length {α : Type} (l r : List α) :
    (l ++ r).eraseIdx l.length = l ++ r.eraseIdx 0 := by
  induction l with
  | nil => simp
  | cons x xs ih =>
      simp only [List.cons_append, List.length_cons, List.eraseIdx_cons_succ, ih]

/-- The contribution registerIcon builds from its arguments. -/
def mkContribution (id : String) (defaults : IconDefaults) (description : Option String)
    (deprecationMessage : Option String) : IconContribution :=
  { id := id, description := resolveDescription id description,
    deprecationMessage := deprecationMessage, defaults := defaults }

/-- C9: registering the same id twice with no intervening deregistration
leaves exactly one contribution for that id in getIcons, carrying the
values of the second call, while the reference schema enum then holds the
id twice; a single deregisterIcon afterwards removes only the first of
the two enum occurrences and drops the contribution. -/
theorem duplicate_icon_registration (s : IconRegistryState) (id : String)
    (d1 d2 : IconDefaults) (desc1 desc2 dep1 dep2 : Option String)
    (hmap : id ∉ s.iconsById.map Prod.fst)
    (henum : id ∉ s.enum)
    (hwf : ∀ kv ∈ s.iconsById, (kv : String × IconContribution).2.id = kv.1) :
    ((getIcons (registerIcon (registerIcon s id d1 desc1 dep1).1 id d2 desc2 dep2).1).filter
        (fun c => c.id == id))
      = [mkContribution id d2 desc2 dep2]
    ∧ (getIconReferenceSchemaEnum
        (registerIcon (registerIcon s id d1 desc1 dep1).1 id d2 desc2 dep2).1).count id = 2
    ∧ (deregisterIcon
        (registerIcon (registerIcon s id d1 desc1 dep1).1 id d2 desc2 dep2).1 id).enum
      = s.enum ++ [id]
    ∧ id ∉ ((deregisterIcon
        (registerIcon (registerIcon s id d1 desc1 dep1).1 id d2 desc2 dep2).1
          id).iconsById.map Prod.fst) := by
  have hIconsById :
      (registerIcon (registerIcon s id d1 desc1 dep1).1 id d2 desc2 dep2).1.iconsById
      = s.iconsById ++ [(id, mkContribution id d2 desc2 dep2)] := by
    simp only [registerIcon]
    rw [upsert_not_mem id _ s.iconsById hmap, upsert_overwrite id _ _ s.iconsById hmap]
    rfl
  have hEnum :
      (registerIcon (registerIcon s id d1 desc1 dep1).1 id d2 desc2 dep2).1.enum
      = s.enum ++ [id] ++ [id] := by
    simp only [registerIcon]
  have hfio : firstIndexOf (s.enum ++ [id] ++ [id]) id = some s.enum.length := by
    rw [List.append_assoc, firstIndexOf_append_not_mem s.enum _ id henum]
    simp only [List.cons_append, List.nil_append]
    rw [firstIndexOf_cons_self]
    simp
  refine ⟨?_, ?_, ?_, ?_⟩
  · unfold getIcons
    rw [hIconsById, List.map_append, List.filter_append]
    have hleft : (s.iconsById.map Prod.snd).filter (fun c => c.id == id) = [] := by
      rw [List.filter_eq_nil_iff]
      intro c hc
      obtain ⟨kv, hkv, hkvc⟩ := List.mem_map.mp hc
      have hkid := hwf kv hkv
      have hne : kv.1 ≠ id := fun hcon => hmap (List.mem_map.mpr ⟨kv, hkv, hcon⟩)
      rw [← hkvc]
      simp [hkid, hne]
    rw [hleft]
    simp [mkContribution]
  · unfold getIconReferenceSchemaEnum
    rw [hEnum]
    simp [List.count_append, List.count_eq_zero.mpr henum]
  · simp only [deregisterIcon]
    rw [hEnum, hfio]
    show (s.enum ++ [id] ++ [id]).eraseIdx s.enum.length = s.enum ++ [id]
    rw [List.append_assoc]
    simp only [List.cons_append, List.nil_append]
    rw [eraseIdx_append_length, List.eraseIdx_cons_zero]
  · simp only [deregisterIcon]
    rw [hEnum, hfio]
    show id ∉ (deleteKey id
      (registerIcon (registerIcon s id d1 desc1 dep1).1 id d2 desc2 dep2).1.iconsById).map
        Prod.fst
    rw [hIconsById, deleteKey_append_single id _ s.iconsById hmap]
    exact hmap

/-- The registry state at construction: iconsById empty, the schema
properties empty, the reference schema enum and descriptions empty. -/
def emptyIconRegistry : IconRegistryState :=
  { iconsById := [], schemaProperties := [], enum := [], enumDescriptions := [] }

/-- Witness for C9 at the empty registry and a concrete id. -/
theorem duplicate_icon_registration_witness :
    ((getIcons (registerIcon (registerIcon emptyIconRegistry "add"
          (IconDefaults.definition { fontId := none, character := "A" }) none none).1 "add"
          (IconDefaults.definition { fontId := none, character := "B" })
          (some "second") none).1).filter (fun c => c.id == "add"))
      = [mkContribution "add" (IconDefaults.definition { fontId := none, character := "B" })
          (some "second") none]
    ∧ (getIconReferenceSchemaEnum
        (registerIcon (registerIcon emptyIconRegistry "add"
          (IconDefaults.definition { fontId := none, character := "A" }) none none).1 "add"
          (IconDefaults.definition { fontId := none, character := "B" })
          (some "second") none).1).count "add" = 2
    ∧ (deregisterIcon
        (registerIcon (registerIcon emptyIconRegistry "add"
          (IconDefaults.definition { fontId := none, character := "A" }) none none).1 "add"
          (IconDefaults.definition { fontId := none, character := "B" })
          (some "second") none).1 "add").enum
      = emptyIconRegistry.enum ++ ["add"]
    ∧ "add" ∉ ((deregisterIcon
        (registerIcon (registerIcon emptyIconRegistry "add"
          (IconDefaults.definition { fontId := none, character := "A" }) none none).1 "add"
          (IconDefaults.definition { fontId := none, character := "B" })
          (some "second") none).1 "add").iconsById.map Prod.fst) :=
  duplicate_icon_registration emptyIconRegistry "add"
    (IconDefaults.definition { fontId := none, character := "A" })
    (IconDefaults.definition { fontId := none, character := "B" })
    none (some "second") none none (by simp [emptyIconRegistry])
    (by simp [emptyIconRegistry]) (by simp [emptyIconRegistry])

/-- C10: for every Codicon the className accessor returns exactly the
string "codicon codicon-" with the identifier appended, and the
cssSelector accessor exactly ".codicon.codicon-" with the identifier
appended; both are pure accessors of the stored identifier, so they are
deterministic and leave the object unchanged. -/
theorem codicon_accessors (s : String) :
    (Codicon.mk s).className = "codicon codicon-" ++ s
    ∧ (Codicon.mk s).cssSelector = ".codicon.codicon-" ++ s :=
  ⟨rfl, rfl⟩

/-- Witness for C4 at the concrete source. -/
theorem initialize_spec_witness :
    (initialLoad (idealFetch addrSrc)).1.window.length = 50
    ∧ (initialLoad (idealFetch addrSrc)).1.lastOffset = -50
    ∧ (initialLoad (idealFetch addrSrc)).1.window = entrySeg addrSrc (intRange (-50) 50)
    ∧ (initialLoad (idealFetch addrSrc)).2 = some { index := 50, relativeTop := 0.5 } :=
  initialize_spec addrSrc

/-- Witness for C10 at a concrete identifier. -/
theorem codicon_accessors_witness :
    (Codicon.mk "add").className = "codicon codicon-" ++ "add"
    ∧ (Codicon.mk "add").cssSelector = ".codicon.codicon-" ++ "add" :=
  codicon_accessors "add"
